import Mathlib

/-!
Shallow embedding of the Canvas Synchronization Core of the
`opencanvas-standalone` repository, translated from the client component in
`src/unnamed/part_001` (the variants in `src/unnamed/part_000` and
`src/components/Canvas.tsx` share the same core logic).

The core state lives in React `useState` cells:
  * `pixels : Map<string, Pixel>` — the Cell Store, keyed by the template
    string `"x,y"`;
  * `energy : number` — the budget (0..MAX_ENERGY), regenerated by a
    `setInterval` tick every `ENERGY_REGEN_MS`;
  * `paintedThisStroke : Set<string>` — the per-gesture deduplication set;
  * gesture flags `isDrawing` / `isPanning`, plus `pan` / `dragStart` and the
    `selectedColor` string.

JavaScript `Map` is modelled as an association list with `Map.set` /
`Map.get` semantics (`mapSet` replaces in place or appends, `mapGet` finds
the unique binding); `Set` as a duplicate-free list (`setAdd`).  The
`new Date().toISOString()` calls are modelled as explicit string inputs, one
per call site.  The `await supabase.from('pixels').upsert(...)` call is
modelled by returning the dispatched request object; its result is ignored by
the source (no rollback, no retry branch exists), so the post-state does not
depend on the dispatch outcome.
-/

/-- CANVAS_SIZE constant (part_001 line 6). -/
def CANVAS_SIZE : Int := 1000

/-- MAX_ENERGY constant (part_001 line 8). -/
def MAX_ENERGY : Int := 20

/-- ENERGY_REGEN_MS constant (part_001 line 9): milliseconds per regen tick. -/
def ENERGY_REGEN_MS : Nat := 2000

/-- The `Pixel` record type of `src/lib/supabase.ts` (the optional profile
fields are not read or written by the core logic of part_001 and are
omitted). -/
structure Pixel where
  x : Int
  y : Int
  color : String
  placed_at : String
deriving DecidableEq, Repr

/-- The object literal passed to `supabase.from('pixels').upsert` in
part_001 lines 171-180: it carries `x`, `y`, `color` and a client-chosen
`placed_at`, with conflict target `'x,y'`.  No actor identifier appears in
this payload. -/
structure UpsertRequest where
  x : Int
  y : Int
  color : String
  placed_at : String
deriving DecidableEq, Repr

/-- The map key `` `${x},${y}` `` used throughout part_001. -/
def pixelKey (x y : Int) : String := toString x ++ "," ++ toString y

/-- JavaScript `Map.set`: replace the binding in place if the key is present,
otherwise append. -/
def mapSet : List (String × Pixel) → String → Pixel → List (String × Pixel)
  | [], k, v => [(k, v)]
  | e :: rest, k, v => if e.1 = k then (k, v) :: rest else e :: mapSet rest k v

/-- JavaScript `Map.get`: the first (and in a `Map`, only) binding for the
key. -/
def mapGet : List (String × Pixel) → String → Option Pixel
  | [], _ => none
  | e :: rest, k => if e.1 = k then some e.2 else mapGet rest k

/-- JavaScript `Set.add`: append the element unless already present. -/
def setAdd (l : List String) (k : String) : List String :=
  if l.contains k then l else l ++ [k]

/-- The `useState` cells of the part_001 `Canvas` component that the
synchronization core reads or writes (purely visual state such as `zoom`,
`showGrid` and the custom-color text field is independent of the core and
omitted). -/
structure CanvasState where
  pixels : List (String × Pixel)
  energy : Int
  selectedColor : String
  isPanning : Bool
  isDrawing : Bool
  dragStart : Int × Int
  pan : Int × Int
  paintedThisStroke : List String
deriving DecidableEq, Repr

/-- The initial `useState` values of part_001 lines 19-29. -/
def initState : CanvasState :=
  { pixels := []
    energy := MAX_ENERGY
    selectedColor := "#000000"
    isPanning := false
    isDrawing := false
    dragStart := (0, 0)
    pan := (0, 0)
    paintedThisStroke := [] }

/-- The `payload.eventType` values delivered by the `postgres_changes`
subscription. -/
inductive EventType where
  | INSERT
  | UPDATE
  | DELETE
deriving DecidableEq, Repr

/-- A change-feed payload: the event type together with `payload.new`
(`newRecord` here, since `new` is reserved), cast to `Pixel` by the source
without any validation. -/
structure RemotePayload where
  eventType : EventType
  newRecord : Pixel
deriving DecidableEq, Repr

/-- The subscription callback of `subscribeToPixels` (part_001 lines 63-72):
for `INSERT` or `UPDATE` it unconditionally `set`s `payload.new` under its
coordinate key; any other event type falls through with no state change.
There is no bounds check, no comparison against the held record, and no
logging. -/
def onRemoteEvent (s : CanvasState) (p : RemotePayload) : CanvasState :=
  if p.eventType = EventType.INSERT ∨ p.eventType = EventType.UPDATE then
    { s with pixels := mapSet s.pixels (pixelKey p.newRecord.x p.newRecord.y) p.newRecord }
  else s

/-- One firing of the energy `setInterval` callback (part_001 lines 31-36):
`setEnergy(prev => Math.min(prev + 1, MAX_ENERGY))`. -/
def regenTick (s : CanvasState) : CanvasState :=
  { s with energy := min (s.energy + 1) MAX_ENERGY }

/-- Iterated regen ticks: `n` elapsed whole intervals of `ENERGY_REGEN_MS`
fire the interval callback `n` times. -/
def regenTicks (s : CanvasState) : Nat → CanvasState
  | 0 => s
  | n + 1 => regenTick (regenTicks s n)

/-- The decision logic of `getPixelCoords` (part_001 lines 133-147).  The
floating-point scaling from client coordinates to the floored grid pair
`(x, y)` is taken as the function's input; the modelled part is the bounds
check `x >= 0 && x < CANVAS_SIZE && y >= 0 && y < CANVAS_SIZE`, returning the
pair on success and `null` (`none`) otherwise. -/
def getPixelCoords (x y : Int) : Option (Int × Int) :=
  if 0 ≤ x ∧ x < CANVAS_SIZE ∧ 0 ≤ y ∧ y < CANVAS_SIZE then some (x, y) else none

/-- `paintPixel` (part_001 lines 149-181).  `now1` is the
`new Date().toISOString()` of the optimistic record (line 162), `now2` the
one in the upsert payload (line 177).  The early return fires when the key is
already in `paintedThisStroke` or `energy < 1`; otherwise the optimistic
record is `set` into `pixels`, the key added to the stroke set, the energy
clamped down by one, and exactly one upsert request dispatched (returned
here as the second component; the source ignores its result). -/
def paintPixel (s : CanvasState) (x y : Int) (now1 now2 : String) :
    CanvasState × Option UpsertRequest :=
  let key := pixelKey x y
  if s.paintedThisStroke.contains key ∨ s.energy < 1 then (s, none)
  else
    ({ s with
        pixels := mapSet s.pixels key { x := x, y := y, color := s.selectedColor, placed_at := now1 }
        paintedThisStroke := setAdd s.paintedThisStroke key
        energy := max 0 (s.energy - 1) },
     some { x := x, y := y, color := s.selectedColor, placed_at := now2 })

/-- `handleMouseDown` (part_001 lines 183-195).  `button`, `ctrlKey`,
`metaKey` and the client position come from the mouse event; `gx`, `gy` are
the floored grid coordinates that `getPixelCoords` computes from it.  In the
draw branch the source queues `setPaintedThisStroke(new Set())` and then
calls `paintPixel` in the same handler: under React state batching the
`paintedThisStroke.has` / `energy` reads inside `paintPixel` see the
pre-handler snapshot, while the queued functional updates compose after the
reset, so an admitted paint lands on the freshly cleared set. -/
def handleMouseDown (s : CanvasState) (button : Int) (ctrlKey metaKey : Bool)
    (clientX clientY gx gy : Int) (now1 now2 : String) :
    CanvasState × Option UpsertRequest :=
  if button = 2 ∨ ctrlKey = true ∨ metaKey = true then
    ({ s with isPanning := true
              dragStart := (clientX - s.pan.1, clientY - s.pan.2) }, none)
  else
    match getPixelCoords gx gy with
    | none => ({ s with isDrawing := true, paintedThisStroke := [] }, none)
    | some (x, y) =>
      let key := pixelKey x y
      if s.paintedThisStroke.contains key ∨ s.energy < 1 then
        ({ s with isDrawing := true, paintedThisStroke := [] }, none)
      else
        ({ s with
            isDrawing := true
            pixels := mapSet s.pixels key { x := x, y := y, color := s.selectedColor, placed_at := now1 }
            paintedThisStroke := setAdd [] key
            energy := max 0 (s.energy - 1) },
         some { x := x, y := y, color := s.selectedColor, placed_at := now2 })

/-- `handleMouseMove` (part_001 lines 197-207): pan update when panning,
otherwise paint at the grid coordinates when drawing and `getPixelCoords`
returns a pair; a `null` pair is skipped silently. -/
def handleMouseMove (s : CanvasState) (clientX clientY gx gy : Int) (now1 now2 : String) :
    CanvasState × Option UpsertRequest :=
  if s.isPanning = true then
    ({ s with pan := (clientX - s.dragStart.1, clientY - s.dragStart.2) }, none)
  else if s.isDrawing = true then
    match getPixelCoords gx gy with
    | some (x, y) => paintPixel s x y now1 now2
    | none => (s, none)
  else (s, none)

/-- `handleMouseUp` (part_001 lines 209-213): end both modes and clear the
stroke set. -/
def handleMouseUp (s : CanvasState) : CanvasState :=
  { s with isPanning := false, isDrawing := false, paintedThisStroke := [] }

/-- One operation of the core: a change-feed delivery, a direct `paintPixel`
call, a regen tick, or one of the mouse handlers. -/
inductive Op where
  | remote (p : RemotePayload)
  | paint (x y : Int) (now1 now2 : String)
  | tick
  | down (button : Int) (ctrlKey metaKey : Bool) (clientX clientY gx gy : Int) (now1 now2 : String)
  | move (clientX clientY gx gy : Int) (now1 now2 : String)
  | up

/-- Apply one operation; the second component is the upsert request that the
operation dispatches, if any (each operation calls `paintPixel` at most
once, hence dispatches at most one request). -/
def applyOp (s : CanvasState) : Op → CanvasState × Option UpsertRequest
  | Op.remote p => (onRemoteEvent s p, none)
  | Op.paint x y n1 n2 => paintPixel s x y n1 n2
  | Op.tick => (regenTick s, none)
  | Op.down b ck mk cx cy gx gy n1 n2 => handleMouseDown s b ck mk cx cy gx gy n1 n2
  | Op.move cx cy gx gy n1 n2 => handleMouseMove s cx cy gx gy n1 n2
  | Op.up => (handleMouseUp s, none)

/-- Apply a sequence of operations left to right. -/
def applyOps (s : CanvasState) (ops : List Op) : CanvasState :=
  ops.foldl (fun t op => (applyOp t op).1) s

/-- The coordinate key an operation can possibly write in the Cell Store
(an over-approximation: a rejected paint writes nothing). -/
def opTouchKey : Op → Option String
  | Op.remote p => some (pixelKey p.newRecord.x p.newRecord.y)
  | Op.paint x y _ _ => some (pixelKey x y)
  | Op.tick => none
  | Op.down _ _ _ _ _ gx gy _ _ => (getPixelCoords gx gy).map (fun q => pixelKey q.1 q.2)
  | Op.move _ _ gx gy _ _ => (getPixelCoords gx gy).map (fun q => pixelKey q.1 q.2)
  | Op.up => none

/-! ### Helper lemmas about the JavaScript `Map` model -/

theorem mapGet_mapSet_self (m : List (String × Pixel)) (k : String) (v : Pixel) :
    mapGet (mapSet m k v) k = some v := by
  induction m with
  | nil => simp [mapSet, mapGet]
  | cons e rest ih =>
    by_cases h : e.1 = k
    · simp [mapSet, mapGet, h]
    · simp [mapSet, mapGet, h, ih]

theorem mapGet_mapSet_ne (m : List (String × Pixel)) (k k' : String) (v : Pixel)
    (h : k ≠ k') :
    mapGet (mapSet m k v) k' = mapGet m k' := by
  induction m with
  | nil => simp [mapSet, mapGet, h]
  | cons e rest ih =>
    by_cases he : e.1 = k
    · simp [mapSet, mapGet, he, h]
    · simp [mapSet, mapGet, he, ih]

theorem mapGet_mapSet_ne_none (m : List (String × Pixel)) (k k' : String) (v : Pixel)
    (h : mapGet m k' ≠ none) : mapGet (mapSet m k v) k' ≠ none := by
  by_cases hk : k = k'
  · subst hk
    simp [mapGet_mapSet_self]
  · rw [mapGet_mapSet_ne m k k' v hk]
    exact h

/-! ### Frame lemmas: which operations can touch a given Cell Store key -/

theorem applyOp_pixels_frame (s : CanvasState) (op : Op) (k : String)
    (h : opTouchKey op ≠ some k) :
    mapGet (applyOp s op).1.pixels k = mapGet s.pixels k := by
  cases op with
  | remote p =>
    simp only [opTouchKey, ne_eq, Option.some.injEq] at h
    simp only [applyOp, onRemoteEvent]
    split
    · exact mapGet_mapSet_ne _ _ _ _ h
    · rfl
  | paint x y n1 n2 =>
    simp only [opTouchKey, ne_eq, Option.some.injEq] at h
    simp only [applyOp, paintPixel]
    split
    · rfl
    · exact mapGet_mapSet_ne _ _ _ _ h
  | tick => rfl
  | up => rfl
  | down b ck mk cx cy gx gy n1 n2 =>
    simp only [applyOp, handleMouseDown]
    split
    · rfl
    · rcases hgc : getPixelCoords gx gy with _ | ⟨x, y⟩
      · simp [hgc]
      · have hk : pixelKey x y ≠ k := by
          simp [opTouchKey, hgc] at h
          exact h
        simp only [hgc]
        split
        · rfl
        · exact mapGet_mapSet_ne _ _ _ _ hk
  | move cx cy gx gy n1 n2 =>
    simp only [applyOp, handleMouseMove]
    split
    · rfl
    · split
      · rcases hgc : getPixelCoords gx gy with _ | ⟨x, y⟩
        · simp [hgc]
        · have hk : pixelKey x y ≠ k := by
            simp [opTouchKey, hgc] at h
            exact h
          simp only [hgc, paintPixel]
          split
          · rfl
          · exact mapGet_mapSet_ne _ _ _ _ hk
      · rfl

theorem applyOps_pixels_frame (s : CanvasState) (ops : List Op) (k : String)
    (h : ∀ op ∈ ops, opTouchKey op ≠ some k) :
    mapGet (applyOps s ops).pixels k = mapGet s.pixels k := by
  induction ops generalizing s with
  | nil => rfl
  | cons op rest ih =>
    have h1 := h op (List.mem_cons_self op rest)
    have h2 : ∀ o ∈ rest, opTouchKey o ≠ some k :=
      fun o ho => h o (List.mem_cons_of_mem _ ho)
    rw [show applyOps s (op :: rest) = applyOps (applyOp s op).1 rest from rfl,
        ih ((applyOp s op).1) h2]
    exact applyOp_pixels_frame s op k h1

/-! ### Budget bounds are preserved by every operation -/

theorem energy_step (s : CanvasState) (op : Op)
    (h0 : 0 ≤ s.energy) (h1 : s.energy ≤ MAX_ENERGY) :
    0 ≤ (applyOp s op).1.energy ∧ (applyOp s op).1.energy ≤ MAX_ENERGY := by
  have hM : MAX_ENERGY = 20 := rfl
  cases op with
  | remote p =>
    simp only [applyOp, onRemoteEvent]
    split <;> exact ⟨h0, h1⟩
  | tick =>
    simp only [applyOp, regenTick]
    omega
  | paint x y n1 n2 =>
    simp only [applyOp, paintPixel]
    split
    · exact ⟨h0, h1⟩
    · simp only
      omega
  | up => exact ⟨h0, h1⟩
  | down b ck mk cx cy gx gy n1 n2 =>
    simp only [applyOp, handleMouseDown]
    split
    · exact ⟨h0, h1⟩
    · rcases hgc : getPixelCoords gx gy with _ | ⟨x, y⟩
      · simp [hgc]
        exact ⟨h0, h1⟩
      · simp only [hgc]
        split
        · exact ⟨h0, h1⟩
        · simp only
          omega
  | move cx cy gx gy n1 n2 =>
    simp only [applyOp, handleMouseMove]
    split
    · exact ⟨h0, h1⟩
    · split
      · rcases hgc : getPixelCoords gx gy with _ | ⟨x, y⟩
        · simp [hgc]
          exact ⟨h0, h1⟩
        · simp only [hgc, paintPixel]
          split
          · exact ⟨h0, h1⟩
          · simp only
            omega
      · exact ⟨h0, h1⟩

theorem energy_steps (s : CanvasState) (ops : List Op)
    (h0 : 0 ≤ s.energy) (h1 : s.energy ≤ MAX_ENERGY) :
    0 ≤ (applyOps s ops).energy ∧ (applyOps s ops).energy ≤ MAX_ENERGY := by
  induction ops generalizing s with
  | nil => exact ⟨h0, h1⟩
  | cons op rest ih =>
    rw [show applyOps s (op :: rest) = applyOps (applyOp s op).1 rest from rfl]
    have := energy_step s op h0 h1
    exact ih _ this.1 this.2

theorem applyOp_pixels_mono (s : CanvasState) (op : Op) (k : String)
    (hk : mapGet s.pixels k ≠ none) :
    mapGet (applyOp s op).1.pixels k ≠ none := by
  cases op with
  | remote p =>
    simp only [applyOp, onRemoteEvent]
    split
    · exact mapGet_mapSet_ne_none _ _ _ _ hk
    · exact hk
  | paint x y n1 n2 =>
    simp only [applyOp, paintPixel]
    split
    · exact hk
    · exact mapGet_mapSet_ne_none _ _ _ _ hk
  | tick => exact hk
  | up => exact hk
  | down b ck mk cx cy gx gy n1 n2 =>
    simp only [applyOp, handleMouseDown]
    split
    · exact hk
    · rcases hgc : getPixelCoords gx gy with _ | ⟨x, y⟩
      · simp [hgc]
        exact hk
      · simp only [hgc]
        split
        · exact hk
        · exact mapGet_mapSet_ne_none _ _ _ _ hk
  | move cx cy gx gy n1 n2 =>
    simp only [applyOp, handleMouseMove]
    split
    · exact hk
    · split
      · rcases hgc : getPixelCoords gx gy with _ | ⟨x, y⟩
        · simp [hgc]
          exact hk
        · simp only [hgc, paintPixel]
          split
          · exact hk
          · exact mapGet_mapSet_ne_none _ _ _ _ hk
      · exact hk

/-! ### Claim theorems -/

/-- C1: after any interleaving of local operations and remote events, applying
a remote `Inserted`/`Updated` event last leaves the Cell Store's record at the
event's coordinate equal to the event's Cell; moreover the reconciler applies
the incoming Cell by an unconditional `put` on the current store (never
comparing `placedAt` against the held record). -/
theorem reconciler_last_received_wins (s : CanvasState) (ops : List Op) (p : RemotePayload)
    (h : p.eventType = EventType.INSERT ∨ p.eventType = EventType.UPDATE) :
    mapGet (applyOps s (ops ++ [Op.remote p])).pixels (pixelKey p.newRecord.x p.newRecord.y)
      = some p.newRecord
    ∧ onRemoteEvent (applyOps s ops) p
      = { applyOps s ops with
          pixels := mapSet (applyOps s ops).pixels
            (pixelKey p.newRecord.x p.newRecord.y) p.newRecord } := by
  have hfold : applyOps s (ops ++ [Op.remote p])
      = (applyOp (applyOps s ops) (Op.remote p)).1 := by
    simp [applyOps, List.foldl_append]
  constructor
  · rw [hfold]
    simp only [applyOp, onRemoteEvent, if_pos h]
    exact mapGet_mapSet_self _ _ _
  · simp only [onRemoteEvent, if_pos h]

/-- Witness for C1: a local optimistic paint at (5,5) followed by a remote
`UPDATE` echo for (5,5); the store ends at the event's record. -/
theorem reconciler_last_received_wins_witness :
    mapGet (applyOps initState
        ([Op.paint 5 5 "t0" "t0"] ++
          [Op.remote ⟨EventType.UPDATE, ⟨5, 5, "#FF0000", "ts"⟩⟩])).pixels
        (pixelKey 5 5)
      = some ⟨5, 5, "#FF0000", "ts"⟩ :=
  (reconciler_last_received_wins initState [Op.paint 5 5 "t0" "t0"]
    ⟨EventType.UPDATE, ⟨5, 5, "#FF0000", "ts"⟩⟩ (Or.inr rfl)).1

/-- C2: starting from a budget within bounds, every operation sequence keeps
`0 <= energy <= MAX_ENERGY`; a regen tick adds one token capped at capacity;
an admitted paint decrements the budget by exactly one; and a paint attempt
with zero tokens returns without mutating any state and dispatches nothing. -/
theorem budget_regulator_invariant (s : CanvasState)
    (h0 : 0 ≤ s.energy) (h1 : s.energy ≤ MAX_ENERGY) :
    (∀ ops : List Op, 0 ≤ (applyOps s ops).energy ∧ (applyOps s ops).energy ≤ MAX_ENERGY)
    ∧ (regenTick s).energy = min (s.energy + 1) MAX_ENERGY
    ∧ (∀ x y : Int, ∀ n1 n2 : String, ((paintPixel s x y n1 n2).2).isSome = true →
        (paintPixel s x y n1 n2).1.energy = s.energy - 1)
    ∧ (s.energy = 0 → ∀ x y : Int, ∀ n1 n2 : String, paintPixel s x y n1 n2 = (s, none)) := by
  refine ⟨fun ops => energy_steps s ops h0 h1, rfl, ?_, ?_⟩
  · intro x y n1 n2 hsome
    by_cases hb : pixelKey x y ∈ s.paintedThisStroke ∨ s.energy < 1
    · simp [paintPixel, hb] at hsome
    · have hb2 : ¬ (s.paintedThisStroke.contains (pixelKey x y) = true ∨ s.energy < 1) := by
        simpa using hb
      simp only [paintPixel, if_neg hb2]
      omega
  · intro he x y n1 n2
    have hb : pixelKey x y ∈ s.paintedThisStroke ∨ s.energy < 1 :=
      Or.inr (by omega)
    simp [paintPixel, hb]

/-- Witness for C2 at the initial state: full budget is in bounds, and a
paint followed by a tick stays within bounds. -/
theorem budget_regulator_invariant_witness :
    (0 ≤ initState.energy ∧ initState.energy ≤ MAX_ENERGY)
    ∧ 0 ≤ (applyOps initState [Op.paint 1 1 "a" "b", Op.tick]).energy
    ∧ (applyOps initState [Op.paint 1 1 "a" "b", Op.tick]).energy ≤ MAX_ENERGY :=
  ⟨⟨by decide, by decide⟩,
    ((budget_regulator_invariant initState (by decide) (by decide)).1
      [Op.paint 1 1 "a" "b", Op.tick]).1,
    ((budget_regulator_invariant initState (by decide) (by decide)).1
      [Op.paint 1 1 "a" "b", Op.tick]).2⟩

theorem setAdd_contains (l : List String) (k : String) :
    (setAdd l k).contains k = true := by
  simp only [setAdd]
  split
  · assumption
  · simp

theorem setAdd_mem (l : List String) (k : String) : k ∈ setAdd l k := by
  simp only [setAdd]
  split
  · rename_i h
    simpa using h
  · simp

theorem paintPixel_mem_noop (s : CanvasState) (x y : Int) (n1 n2 : String)
    (h : pixelKey x y ∈ s.paintedThisStroke) :
    paintPixel s x y n1 n2 = (s, none) := by
  simp [paintPixel, h]

/-- C3 counterexample: with zero budget and an empty stroke set, a paint
attempt at (1,1) does not record the coordinate into `paintedThisStroke`,
although the coordinate is not already present.  The claim predicts that the
deduplication check records it independently of the budget level; the source
only records a coordinate when the paint is fully admitted, because the
dedup test and the budget test share one early-return condition. -/
theorem dedup_records_despite_budget_cex :
    (paintPixel { initState with energy := 0 } 1 1 "t1" "t1").1.paintedThisStroke.contains
        (pixelKey 1 1) = false := by
  decide

/-- C3 amended: a coordinate already in `paintedThisStroke` makes the paint a
no-op regardless of budget; a coordinate is recorded exactly when the paint
is admitted (not already present and at least one token); an admitted paint
records its key and makes every repeat within the gesture a no-op; ending the
gesture clears the set, and a left-button mouse-down starts the new gesture
from the empty set (containing at most the cell painted by the down event
itself). -/
theorem stroke_dedup (s : CanvasState) (x y : Int) (n1 n2 : String) :
    (s.paintedThisStroke.contains (pixelKey x y) = true →
        paintPixel s x y n1 n2 = (s, none))
    ∧ (((paintPixel s x y n1 n2).2).isSome = true ↔
        (s.paintedThisStroke.contains (pixelKey x y) = false ∧ 1 ≤ s.energy))
    ∧ (((paintPixel s x y n1 n2).2).isSome = true →
        ((paintPixel s x y n1 n2).1.paintedThisStroke.contains (pixelKey x y) = true
          ∧ ∀ m1 m2 : String, paintPixel (paintPixel s x y n1 n2).1 x y m1 m2
              = ((paintPixel s x y n1 n2).1, none)))
    ∧ (handleMouseUp s).paintedThisStroke = []
    ∧ (∀ cx cy gx gy : Int, ∀ m1 m2 : String,
        (handleMouseDown s 0 false false cx cy gx gy m1 m2).1.paintedThisStroke = []
        ∨ (handleMouseDown s 0 false false cx cy gx gy m1 m2).1.paintedThisStroke
            = [pixelKey gx gy]) := by
  refine ⟨?_, ?_, ?_, rfl, ?_⟩
  · intro hmem
    have hb : pixelKey x y ∈ s.paintedThisStroke ∨ s.energy < 1 :=
      Or.inl (by simpa using hmem)
    simp [paintPixel, hb]
  · by_cases hb : pixelKey x y ∈ s.paintedThisStroke ∨ s.energy < 1
    · simp [paintPixel, hb]
      rcases hb with hb | hb
      · intro hc
        exact absurd hb hc
      · intro _
        omega
    · have hmem : pixelKey x y ∉ s.paintedThisStroke := fun hm => hb (Or.inl hm)
      have he : ¬ s.energy < 1 := fun hlt => hb (Or.inr hlt)
      simp [paintPixel, hb]
      exact ⟨hmem, by omega⟩
  · intro hsome
    by_cases hb : pixelKey x y ∈ s.paintedThisStroke ∨ s.energy < 1
    · simp [paintPixel, hb] at hsome
    · have hrec : (paintPixel s x y n1 n2).1.paintedThisStroke
          = setAdd s.paintedThisStroke (pixelKey x y) := by
        simp [paintPixel, hb]
      constructor
      · rw [hrec]
        exact setAdd_contains _ _
      · intro m1 m2
        apply paintPixel_mem_noop
        rw [hrec]
        exact setAdd_mem _ _
  · intro cx cy gx gy m1 m2
    simp only [handleMouseDown]
    rw [if_neg (by simp)]
    rcases hgc : getPixelCoords gx gy with _ | ⟨x', y'⟩ <;> simp only [hgc]
    · left
      trivial
    · have hxy : x' = gx ∧ y' = gy := by
        simp only [getPixelCoords] at hgc
        split at hgc
        · simp only [Option.some.injEq, Prod.mk.injEq] at hgc
          exact ⟨hgc.1.symm, hgc.2.symm⟩
        · cases hgc
      obtain ⟨hx, hy⟩ := hxy
      subst hx
      subst hy
      by_cases hb : pixelKey x' y' ∈ s.paintedThisStroke ∨ s.energy < 1
      · left
        simp [hb]
      · right
        simp [hb, setAdd]

/-- Witness for C3's amended theorem: the admission criterion evaluated at
the initial state and coordinate (2,2). -/
theorem stroke_dedup_witness :
    ((paintPixel initState 2 2 "a" "b").2).isSome = true ↔
      (initState.paintedThisStroke.contains (pixelKey 2 2) = false ∧ 1 ≤ initState.energy) :=
  (stroke_dedup initState 2 2 "a" "b").2.1

theorem getPixelCoords_some (gx gy x y : Int)
    (h : getPixelCoords gx gy = some (x, y)) :
    x = gx ∧ y = gy ∧ 0 ≤ x ∧ x < CANVAS_SIZE ∧ 0 ≤ y ∧ y < CANVAS_SIZE := by
  simp only [getPixelCoords] at h
  split at h
  · rename_i hP
    simp only [Option.some.injEq, Prod.mk.injEq] at h
    obtain ⟨h1, h2⟩ := h
    subst h1
    subst h2
    exact ⟨rfl, rfl, hP.1, hP.2.1, hP.2.2.1, hP.2.2.2⟩
  · cases h

/-- C4: an out-of-range grid coordinate is rejected by `getPixelCoords`
(`null`, the sole rejection path of a paint attempt — the code surfaces no
explicit error value, so this `none` is the embedding's `OutOfRange`
outcome); a mouse-move paint attempt at it leaves the whole state unchanged
and dispatches nothing; a mouse-down there changes no Cell Store entry and
dispatches nothing; and every request any mouse-move ever dispatches carries
in-range coordinates only. -/
theorem out_of_range_rejected (x y : Int)
    (h : x < 0 ∨ CANVAS_SIZE ≤ x ∨ y < 0 ∨ CANVAS_SIZE ≤ y) :
    getPixelCoords x y = none
    ∧ (∀ s : CanvasState, ∀ cx cy : Int, ∀ n1 n2 : String, s.isPanning = false →
        handleMouseMove s cx cy x y n1 n2 = (s, none))
    ∧ (∀ s : CanvasState, ∀ b : Int, ∀ ck mk : Bool, ∀ cx cy : Int, ∀ n1 n2 : String,
        (handleMouseDown s b ck mk cx cy x y n1 n2).1.pixels = s.pixels
        ∧ (handleMouseDown s b ck mk cx cy x y n1 n2).2 = none)
    ∧ (∀ s : CanvasState, ∀ cx cy gx gy : Int, ∀ n1 n2 : String, ∀ req : UpsertRequest,
        (handleMouseMove s cx cy gx gy n1 n2).2 = some req →
        0 ≤ req.x ∧ req.x < CANVAS_SIZE ∧ 0 ≤ req.y ∧ req.y < CANVAS_SIZE) := by
  have hg : getPixelCoords x y = none := by
    simp only [getPixelCoords]
    rw [if_neg]
    omega
  refine ⟨hg, ?_, ?_, ?_⟩
  · intro s cx cy n1 n2 hpan
    simp only [handleMouseMove, hpan]
    split
    · rename_i hfalse
      simp at hfalse
    · split
      · simp [hg]
      · rfl
  · intro s b ck mk cx cy n1 n2
    simp only [handleMouseDown]
    split
    · exact ⟨rfl, rfl⟩
    · simp [hg]
  · intro s cx cy gx gy n1 n2 req hreq
    simp only [handleMouseMove] at hreq
    split at hreq
    · cases hreq
    · split at hreq
      · rcases hgc : getPixelCoords gx gy with _ | ⟨x', y'⟩
        · rw [hgc] at hreq
          cases hreq
        · rw [hgc] at hreq
          obtain ⟨hx, hy, hb1, hb2, hb3, hb4⟩ := getPixelCoords_some gx gy x' y' hgc
          simp only [paintPixel] at hreq
          split at hreq
          · cases hreq
          · simp only [Option.some.injEq] at hreq
            rw [← hreq]
            exact ⟨hb1, hb2, hb3, hb4⟩
      · cases hreq

/-- Witness for C4 at the out-of-range coordinate (1000, 0). -/
theorem out_of_range_rejected_witness :
    ((1000 : Int) < 0 ∨ CANVAS_SIZE ≤ (1000 : Int) ∨ (0 : Int) < 0 ∨ CANVAS_SIZE ≤ (0 : Int))
    ∧ getPixelCoords 1000 0 = none :=
  ⟨Or.inr (Or.inl (by decide)),
    (out_of_range_rejected 1000 0 (Or.inr (Or.inl (by decide)))).1⟩

/-- C5 counterexample: the remote `INSERT` of a record at the out-of-range
coordinate (1000, 0) is not dropped — it changes the Cell Store (the claim
predicts the store is left unchanged for every malformed event). -/
theorem reconciler_no_validation_cex :
    (onRemoteEvent initState
        { eventType := EventType.INSERT,
          newRecord := { x := 1000, y := 0, color := "#FF0000", placed_at := "ts" } }).pixels
      ≠ initState.pixels := by
  decide

/-- C5 amended: the reconciler performs no validation at all — every
`Inserted`/`Updated` event, including one carrying an out-of-range
coordinate, is applied unconditionally to the Cell Store by `put` rather
than dropped or logged; the handler is a total function, so processing never
crashes. -/
theorem reconciler_applies_unvalidated (s : CanvasState) (p : RemotePayload)
    (h : p.eventType = EventType.INSERT ∨ p.eventType = EventType.UPDATE) :
    onRemoteEvent s p
      = { s with pixels := mapSet s.pixels (pixelKey p.newRecord.x p.newRecord.y) p.newRecord } := by
  simp only [onRemoteEvent, if_pos h]

/-- Witness for C5's amended theorem: the out-of-range `INSERT` at (1000, 0)
is applied as a `put`. -/
theorem reconciler_applies_unvalidated_witness :
    onRemoteEvent initState ⟨EventType.INSERT, ⟨1000, 0, "#FF0000", "ts"⟩⟩
      = { initState with
          pixels := mapSet initState.pixels (pixelKey 1000 0) ⟨1000, 0, "#FF0000", "ts"⟩ } :=
  reconciler_applies_unvalidated initState ⟨EventType.INSERT, ⟨1000, 0, "#FF0000", "ts"⟩⟩
    (Or.inl rfl)

/-- C6 counterexample: the upsert request dispatched for an admitted paint at
(2, 3) from the initial state is exactly `{x, y, color, placed_at}` with
`placed_at` equal to the client's `new Date().toISOString()` reading — the
claim says the request never includes a placedAt and carries an actorId, but
the dispatched payload contains the client-chosen timestamp and (in this
variant) no actor identifier at all. -/
theorem upsert_payload_cex :
    (paintPixel initState 2 3 "2024-01-01T00:00:00.000Z" "2024-01-01T00:00:00.000Z").2
      = some { x := 2, y := 3, color := "#000000",
               placed_at := "2024-01-01T00:00:00.000Z" } := by
  decide

/-- C6 amended: for every admitted paint the dispatched upsert request
carries the coordinate and the selected color together with a client-chosen
`placed_at` timestamp taken from the client clock at dispatch time; it is not
left to the store to assign the timestamp, and in this variant no actorId
accompanies the request (the profile-enabled `Canvas.tsx` variant adds a
`user_id` field to the same payload). -/
theorem upsert_payload_client_timestamp (s : CanvasState) (x y : Int) (n1 n2 : String)
    (h : ((paintPixel s x y n1 n2).2).isSome = true) :
    (paintPixel s x y n1 n2).2
      = some { x := x, y := y, color := s.selectedColor, placed_at := n2 } := by
  by_cases hb : pixelKey x y ∈ s.paintedThisStroke ∨ s.energy < 1
  · simp [paintPixel, hb] at h
  · simp [paintPixel, hb]

/-- Witness for C6's amended theorem at the initial state. -/
theorem upsert_payload_client_timestamp_witness :
    ((paintPixel initState 2 3 "tA" "tB").2).isSome = true
    ∧ (paintPixel initState 2 3 "tA" "tB").2
        = some { x := 2, y := 3, color := initState.selectedColor, placed_at := "tB" } :=
  ⟨by decide, upsert_payload_client_timestamp initState 2 3 "tA" "tB" (by decide)⟩

/-- C7: after an admitted paint, the Cell Store holds the provisional Cell
(coordinate, selected color, optimistic client timestamp) at that coordinate;
the source ignores the result of the single awaited upsert, so this post-state
is the same whether the dispatch succeeds or fails and no rollback branch
exists; exactly one request is dispatched for the admitted paint; and the
provisional record persists under any subsequent operations that do not write
that coordinate (i.e. until an authoritative echo or another local write for
it). -/
theorem no_rollback_no_retry (s : CanvasState) (x y : Int) (n1 n2 : String)
    (h : ((paintPixel s x y n1 n2).2).isSome = true) :
    mapGet (paintPixel s x y n1 n2).1.pixels (pixelKey x y)
      = some { x := x, y := y, color := s.selectedColor, placed_at := n1 }
    ∧ ((paintPixel s x y n1 n2).2).toList.length = 1
    ∧ (∀ ops : List Op, (∀ op ∈ ops, opTouchKey op ≠ some (pixelKey x y)) →
        mapGet (applyOps (paintPixel s x y n1 n2).1 ops).pixels (pixelKey x y)
          = some { x := x, y := y, color := s.selectedColor, placed_at := n1 }) := by
  by_cases hb : pixelKey x y ∈ s.paintedThisStroke ∨ s.energy < 1
  · simp [paintPixel, hb] at h
  · have hget : mapGet (paintPixel s x y n1 n2).1.pixels (pixelKey x y)
        = some { x := x, y := y, color := s.selectedColor, placed_at := n1 } := by
      simp [paintPixel, hb, mapGet_mapSet_self]
    refine ⟨hget, ?_, ?_⟩
    · simp [paintPixel, hb]
    · intro ops hops
      rw [applyOps_pixels_frame _ ops _ hops]
      exact hget

/-- Witness for C7: an admitted paint at (4, 5), its provisional record, and
its persistence across a regen tick and an unrelated remote event. -/
theorem no_rollback_no_retry_witness :
    ((paintPixel initState 4 5 "p" "q").2).isSome = true
    ∧ mapGet (applyOps (paintPixel initState 4 5 "p" "q").1
          [Op.tick, Op.remote ⟨EventType.UPDATE, ⟨9, 9, "#0000FF", "z"⟩⟩]).pixels
        (pixelKey 4 5)
      = some { x := 4, y := 5, color := initState.selectedColor, placed_at := "p" } :=
  ⟨by decide,
    (no_rollback_no_retry initState 4 5 "p" "q" (by decide)).2.2
      [Op.tick, Op.remote ⟨EventType.UPDATE, ⟨9, 9, "#0000FF", "z"⟩⟩]
      (by decide)⟩

/-- C8: with `MAX_ENERGY = 20` and the 2000 ms interval of `ENERGY_REGEN_MS`,
starting from a full budget minus 5 consumed tokens, three firings of the
regeneration callback (three elapsed whole intervals) yield exactly
`min 20 (20 - 5 + 3) = 18` tokens. -/
theorem regen_numeric_example :
    (regenTicks { initState with energy := MAX_ENERGY - 5 } 3).energy
      = min MAX_ENERGY (MAX_ENERGY - 5 + 3) := by
  decide

/-- C9: a remote event whose type is neither `INSERT` nor `UPDATE` (in this
feed, a `DELETE`) leaves the entire component state unchanged, and no
operation of the core ever removes a coordinate's record from the Cell
Store — the store's domain only ever grows or has entries replaced. -/
theorem reconciler_delete_frame (s : CanvasState) (p : RemotePayload) (op : Op) (k : String)
    (hp : p.eventType ≠ EventType.INSERT ∧ p.eventType ≠ EventType.UPDATE)
    (hk : mapGet s.pixels k ≠ none) :
    onRemoteEvent s p = s ∧ mapGet (applyOp s op).1.pixels k ≠ none := by
  constructor
  · simp only [onRemoteEvent]
    rw [if_neg]
    rintro (h | h)
    · exact hp.1 h
    · exact hp.2 h
  · exact applyOp_pixels_mono s op k hk

/-- Witness for C9: a `DELETE` event arriving at a store holding (7, 7) is
ignored, and (7, 7) survives an arbitrary operation. -/
theorem reconciler_delete_frame_witness :
    mapGet ({ initState with
        pixels := [(pixelKey 7 7, ⟨7, 7, "#00FF00", "t"⟩)] } : CanvasState).pixels
      (pixelKey 7 7) ≠ none
    ∧ onRemoteEvent { initState with pixels := [(pixelKey 7 7, ⟨7, 7, "#00FF00", "t"⟩)] }
        ⟨EventType.DELETE, ⟨9, 9, "#FFFFFF", "u"⟩⟩
      = { initState with pixels := [(pixelKey 7 7, ⟨7, 7, "#00FF00", "t"⟩)] }
    ∧ mapGet (applyOp { initState with pixels := [(pixelKey 7 7, ⟨7, 7, "#00FF00", "t"⟩)] }
          Op.up).1.pixels (pixelKey 7 7) ≠ none := by
  have h := reconciler_delete_frame
      { initState with pixels := [(pixelKey 7 7, ⟨7, 7, "#00FF00", "t"⟩)] }
      ⟨EventType.DELETE, ⟨9, 9, "#FFFFFF", "u"⟩⟩ Op.up (pixelKey 7 7)
      ⟨by decide, by decide⟩ (by decide)
  exact ⟨by decide, h.1, h.2⟩

/-- C10: while a drawing gesture is active (and not panning), a pointer
position whose grid coordinates fall outside the canvas is silently skipped:
the state — Cell Store, budget, stroke set, gesture flags — is returned
unchanged with nothing dispatched, so the gesture remains active; and a later
move whose coordinates are back in range (not yet painted this stroke, with
budget available) does dispatch a paint. -/
theorem oob_move_skipped (s : CanvasState) (cx cy gx gy : Int) (n1 n2 : String)
    (hdraw : s.isDrawing = true) (hpan : s.isPanning = false)
    (h : gx < 0 ∨ CANVAS_SIZE ≤ gx ∨ gy < 0 ∨ CANVAS_SIZE ≤ gy) :
    handleMouseMove s cx cy gx gy n1 n2 = (s, none)
    ∧ (∀ gx2 gy2 : Int, ∀ n3 n4 : String,
        0 ≤ gx2 → gx2 < CANVAS_SIZE → 0 ≤ gy2 → gy2 < CANVAS_SIZE →
        pixelKey gx2 gy2 ∉ s.paintedThisStroke → 1 ≤ s.energy →
        ((handleMouseMove s cx cy gx2 gy2 n3 n4).2).isSome = true) := by
  have hg : getPixelCoords gx gy = none := by
    simp only [getPixelCoords]
    rw [if_neg]
    omega
  constructor
  · simp [handleMouseMove, hpan, hdraw, hg]
  · intro gx2 gy2 n3 n4 hx0 hx1 hy0 hy1 hnp he
    have hg2 : getPixelCoords gx2 gy2 = some (gx2, gy2) := by
      simp only [getPixelCoords]
      rw [if_pos]
      exact ⟨hx0, hx1, hy0, hy1⟩
    have hb : ¬ (pixelKey gx2 gy2 ∈ s.paintedThisStroke ∨ s.energy < 1) := by
      rintro (hc | hc)
      · exact hnp hc
      · omega
    simp [handleMouseMove, hpan, hdraw, hg2, paintPixel, hb]

/-- Witness for C10: a drawing state, the out-of-range pointer (-5, 3), and
the unchanged-state conclusion. -/
theorem oob_move_skipped_witness :
    handleMouseMove { initState with isDrawing := true } 0 0 (-5) 3 "a" "b"
      = ({ initState with isDrawing := true }, none) :=
  (oob_move_skipped { initState with isDrawing := true } 0 0 (-5) 3 "a" "b"
    rfl rfl (Or.inl (by decide))).1
